/-
Spec2Proof.lean — a verification development for CAPTCHArun's round
orchestration core (src/core/session.py, src/core/timer.py, src/core/game.py,
src/core/challenge_factory.py, src/challenges/checkbox.py,
src/challenges/crosswalk.py, src/renderer/grid.py).

The Python code is shallowly embedded: every pure method becomes a Lean
function on an explicit state record; Python ints become ℕ/ℤ, Python floats
(only ever used for seconds and fractions here) become ℚ, Python sets become
Finset/List, and randomness (random.random, random.randint, random.choice,
random.choices) is modelled by explicit oracle parameters — a candidate
stream or a pick function — so that theorems quantify over every possible
outcome of the random draws.
-/
import Mathlib

namespace CAPTCHArun

/-! ## Constants from src/settings.py and module-level constants -/

/-- settings.py: MAX_STRIKES = 3 -/
def MAX_STRIKES : ℕ := 3

/-- settings.py: GRID_COLS = 3 -/
def GRID_COLS : ℕ := 3

/-- settings.py: GRID_ROWS = 3 -/
def GRID_ROWS : ℕ := 3

/-- settings.py: GRID_TILE_W = 96 -/
def GRID_TILE_W : ℤ := 96

/-- settings.py: GRID_TILE_H = 96 -/
def GRID_TILE_H : ℤ := 96

/-- settings.py: GRID_PADDING = 8 -/
def GRID_PADDING : ℤ := 8

/-- settings.py: SCREEN_W = 360 -/
def SCREEN_W : ℤ := 360

/-- settings.py: SCREEN_H = 640 -/
def SCREEN_H : ℤ := 640

/-- settings.py: HEADER_H = 80 -/
def HEADER_H : ℤ := 80

/-- settings.py: TIMER_BAR_H = 8 -/
def TIMER_BAR_H : ℤ := 8

/-- settings.py: VERIFY_BTN_H = 48 -/
def VERIFY_BTN_H : ℤ := 48

/-- settings.py: SUSPICION_BAR_H = 16 -/
def SUSPICION_BAR_H : ℤ := 16

/-- settings.py: BOTTOM_PANEL_H = VERIFY_BTN_H + SUSPICION_BAR_H + 24 -/
def BOTTOM_PANEL_H : ℤ := VERIFY_BTN_H + SUSPICION_BAR_H + 24

/-- settings.py: TIMER_START_S = 12.0 -/
def TIMER_START_S : ℚ := 12

/-- settings.py: TIMER_MIN_S = 4.0 -/
def TIMER_MIN_S : ℚ := 4

/-- settings.py: TIMER_DECAY = 0.4 -/
def TIMER_DECAY : ℚ := 2/5

/-- An RGB colour tuple, as used by settings.COLOR. -/
abbrev RGB := ℕ × ℕ × ℕ

/-- settings.py: COLOR["pass"] = (52, 168, 83) -/
def COLOR_pass : RGB := (52, 168, 83)

/-- settings.py: COLOR["fail"] = (234, 67, 53) -/
def COLOR_fail : RGB := (234, 67, 53)

/-- core/session.py: _FLASH_DURATION = 0.45 -/
def FLASH_DURATION : ℚ := 9/20

/-- core/session.py: _BASE_SCORE = 100 -/
def BASE_SCORE : ℕ := 100

/-! ## core/session.py — class Session -/

/-- The mutable state of core/session.py's `Session`:
round_num, score, streak, strikes, _flash_color, _flash_timer. -/
structure Session where
  round_num : ℕ
  score : ℕ
  streak : ℕ
  strikes : ℕ
  flash_color : Option RGB
  flash_timer : ℚ
deriving DecidableEq, Repr

/-- `Session.reset()` (also `Session.__init__`): round 1, everything else zero. -/
def Session.reset : Session :=
  { round_num := 1, score := 0, streak := 0, strikes := 0
    flash_color := none, flash_timer := 0 }

/-- `Session._start_flash(color)`: set the flash colour and rewind the flash timer. -/
def Session.start_flash (s : Session) (color : RGB) : Session :=
  { s with flash_color := some color, flash_timer := FLASH_DURATION }

/-- `Session.register_pass()`: `score += _BASE_SCORE * (1 + streak)` computed before
`streak += 1`, then `round_num += 1`, then start the green flash. -/
def Session.register_pass (s : Session) : Session :=
  let s2 : Session :=
    { s with score := s.score + BASE_SCORE * (1 + s.streak)
             streak := s.streak + 1
             round_num := s.round_num + 1 }
  s2.start_flash COLOR_pass

/-- `Session.register_fail()`: `strikes += 1`, `streak = 0`, start the red flash.
The round number does not advance. -/
def Session.register_fail (s : Session) : Session :=
  let s2 : Session := { s with strikes := s.strikes + 1, streak := 0 }
  s2.start_flash COLOR_fail

/-- `Session.is_game_over()`: `strikes >= MAX_STRIKES`. -/
def Session.is_game_over (s : Session) : Bool :=
  MAX_STRIKES ≤ s.strikes

/-- `Session.update_flash(dt)`: tick the flash timer down by `dt`, clamped at 0,
clearing the colour exactly when the timer reaches 0. -/
def Session.update_flash (s : Session) (dt : ℚ) : Session :=
  if 0 < s.flash_timer then
    let t := max 0 (s.flash_timer - dt)
    { s with flash_timer := t, flash_color := if t = 0 then none else s.flash_color }
  else s

/-- `Session.flash_state()`: `(None, 0.0)` when no flash is active, else the colour
and the normalised remaining time. -/
def Session.flash_state (s : Session) : Option RGB × ℚ :=
  if s.flash_color = none ∨ FLASH_DURATION = 0 then (none, 0)
  else (s.flash_color, s.flash_timer / FLASH_DURATION)

/-- `n` consecutive `register_pass()` calls on a fresh session. -/
def passN : ℕ → Session
  | 0 => Session.reset
  | n + 1 => (passN n).register_pass

/-- `n` consecutive `register_fail()` calls on a fresh session. -/
def failN : ℕ → Session
  | 0 => Session.reset
  | n + 1 => (failN n).register_fail

/-! ## The security level (spec §3, §4.2) -/

/-- spec §4.2: `ROUNDS_PER_LEVEL` = 5 (one level gained every 5 completed rounds). -/
def ROUNDS_PER_LEVEL : ℕ := 5

/-- Modelled from the spec: the `security_level` / `level_up` bookkeeping that
spec §3 and §4.2 add to the Session contract. This code is missing from
`src/core/session.py` (which tracks only round/score/streak/strikes/flash);
only its consumer survives in the sources — `renderer/ui.py draw_level_up`,
whose docstring refers to "game.py's level-up timer". The non-level fields
follow `src/core/session.py` exactly; `security_level` and `level_up` follow
spec §4.2 word for word: after a pass, `new_level = floor((round_num − 1) /
ROUNDS_PER_LEVEL) + 1`; if `new_level > security_level` then
`security_level = new_level` and `level_up = true`, else `level_up = false`;
a fail clears `level_up` and leaves `security_level` alone. -/
structure SessionL where
  round_num : ℕ
  score : ℕ
  streak : ℕ
  strikes : ℕ
  security_level : ℕ
  level_up : Bool
deriving DecidableEq, Repr

/-- Modelled from the spec (§4.2 `reset()`): round 1, score 0, streak 0,
strikes 0, security_level 1, level_up false. -/
def SessionL.reset : SessionL :=
  { round_num := 1, score := 0, streak := 0, strikes := 0
    security_level := 1, level_up := false }

/-- Modelled from the spec (§4.2 `register_pass()`): score/streak/round exactly
as `src/core/session.py`, then the level recomputation described in the spec. -/
def SessionL.register_pass (s : SessionL) : SessionL :=
  let round2 := s.round_num + 1
  let new_level := (round2 - 1) / ROUNDS_PER_LEVEL + 1
  { round_num := round2
    score := s.score + BASE_SCORE * (1 + s.streak)
    streak := s.streak + 1
    strikes := s.strikes
    security_level := if s.security_level < new_level then new_level else s.security_level
    level_up := decide (s.security_level < new_level) }

/-- Modelled from the spec (§4.2 `register_fail()`): `strikes += 1`, `streak = 0`,
`level_up = false`; round and level unchanged. -/
def SessionL.register_fail (s : SessionL) : SessionL :=
  { s with strikes := s.strikes + 1, streak := 0, level_up := false }

/-- A session transition: one `register_pass()` or one `register_fail()` call. -/
inductive SOp
  | pass
  | fail
deriving DecidableEq, Repr

/-- Run a sequence of pass/fail transitions against a level-tracking session. -/
def SessionL.run (s : SessionL) : List SOp → SessionL
  | [] => s
  | SOp.pass :: ops => s.register_pass.run ops
  | SOp.fail :: ops => s.register_fail.run ops

/-- `n` consecutive `register_pass()` calls on a fresh level-tracking session. -/
def passLN : ℕ → SessionL
  | 0 => SessionL.reset
  | n + 1 => (passLN n).register_pass

/-! ## core/timer.py — class Timer -/

/-- The state of core/timer.py's `Timer`: _limit, _elapsed, _running. -/
structure Timer where
  limit : ℚ
  elapsed : ℚ
  running : Bool
deriving DecidableEq, Repr

/-- `Timer.start(round_num)`: `limit = max(TIMER_MIN_S, TIMER_START_S - (round_num - 1)
* TIMER_DECAY)`, elapsed reset to 0, running set. (All fields are overwritten, so the
method is a constructor in the embedding.) -/
def Timer.start (round_num : ℕ) : Timer :=
  { limit := max TIMER_MIN_S (TIMER_START_S - ((round_num : ℚ) - 1) * TIMER_DECAY)
    elapsed := 0, running := true }

/-- `Timer.stop()`: freeze without resetting elapsed time. -/
def Timer.stop (t : Timer) : Timer :=
  { t with running := false }

/-- `Timer.update(dt)`: advance elapsed by `dt`, saturating at the limit; a no-op
when stopped or already expired. -/
def Timer.update (t : Timer) (dt : ℚ) : Timer :=
  if t.running = true ∧ t.elapsed < t.limit then
    { t with elapsed := min (t.elapsed + dt) t.limit }
  else t

/-- `Timer.fill()`: remaining time as a fraction of the limit, 0 for a
non-positive limit. -/
def Timer.fill (t : Timer) : ℚ :=
  if t.limit ≤ 0 then 0 else max 0 (1 - t.elapsed / t.limit)

/-- `Timer.remaining()`: `max(0, limit - elapsed)`. -/
def Timer.remaining (t : Timer) : ℚ :=
  max 0 (t.limit - t.elapsed)

/-- `Timer.is_expired()`: `elapsed >= limit`. -/
def Timer.is_expired (t : Timer) : Bool :=
  t.limit ≤ t.elapsed

/-! ## core/game.py — class Game (the pieces the claims touch)

The orchestrator's state machine, restricted to what `_submit`,
`_handle_timeout` and the PLAYING branch of `update` read and write: the
state enum, the session and the timer. The active challenge object is
represented by the one observation those methods make of it —
`self.challenge and self.challenge.is_solved()` — as an `Option Bool`
(`none` = no challenge loaded, `some b` = a challenge whose `is_solved()`
returns `b`). Audio calls (`self._play`) are no-ops on game state and are
dropped; `_btn_rect`/`_hover` are render-cache fields never read by these
transitions and are dropped likewise. -/

/-- core/game.py: `class GameState(Enum)`. -/
inductive GameState
  | MENU
  | PLAYING
  | FLASH
  | GAMEOVER
deriving DecidableEq, Repr

/-- The orchestrator state read and written by `_submit` / `_handle_timeout` /
`update` in core/game.py. -/
structure Game where
  state : GameState
  session : Session
  timer : Timer
  challenge : Option Bool
deriving DecidableEq, Repr

/-- `Game._submit()`: stop the timer; register a pass if there is a challenge and
it is solved, otherwise a fail; enter FLASH. -/
def Game.submit (g : Game) : Game :=
  { g with
    timer := g.timer.stop
    session := if g.challenge = some true then g.session.register_pass
               else g.session.register_fail
    state := GameState.FLASH }

/-- `Game._handle_timeout()`: stop the timer, register a fail (unconditionally —
`is_solved()` is never consulted), enter FLASH. -/
def Game.handle_timeout (g : Game) : Game :=
  { g with
    timer := g.timer.stop
    session := g.session.register_fail
    state := GameState.FLASH }

/-- The PLAYING branch of `Game.update(dt, mouse)` (core/game.py lines 167-175):
tick the timer, tick the session's flash decay, then `_handle_timeout()` exactly
when the ticked timer reports `is_expired()`. (The hover bookkeeping touches only
the dropped render-cache fields.) -/
def Game.update_playing (g : Game) (dt : ℚ) : Game :=
  let t := g.timer.update dt
  let s := g.session.update_flash dt
  let g2 : Game := { g with timer := t, session := s }
  if t.is_expired then g2.handle_timeout else g2

/-! ## core/challenge_factory.py — class ChallengeFactory

`CHALLENGE_REGISTRY` is a dict id → (class, weight); the factory reads each
class's `min_round` (stamped from its difficulty at import time) and performs
round gating, no-repeat filtering, pool fallback, and a weighted
`random.choices` draw. A registry entry is embedded as its id, its stamped
`min_round` and its weight; dict iteration order is the insertion order, so the
dict becomes a list whose ids are pairwise distinct. The weighted random draw
is modelled by an oracle `pick` that selects an index into the pool (reduced
mod the pool length, so every oracle is total); since every registry weight is
positive, every pool element is a possible outcome of `random.choices`. The
factory's `_last_id` state is threaded explicitly: `next_challenge` takes the
current `_last_id` and returns the chosen id together with the updated
`_last_id`. `RuntimeError` becomes the `Except.error` branch. -/

/-- One entry of `CHALLENGE_REGISTRY`, with the `min_round` the registry stamps
onto the class at import time from `DIFFICULTY_THRESHOLDS`. -/
structure Entry where
  id : String
  min_round : ℕ
  weight : ℕ
deriving DecidableEq, Repr

/-- challenges/registry.py `CHALLENGE_REGISTRY` with each class's stamped
`min_round`: traffic_light/bus/checkbox are easy (threshold 0), crosswalk is
medium (threshold 5), shuffle is hard (threshold 8). -/
def CHALLENGE_REGISTRY : List Entry :=
  [ { id := "traffic_light", min_round := 0, weight := 10 }
  , { id := "bus", min_round := 0, weight := 10 }
  , { id := "checkbox", min_round := 0, weight := 10 }
  , { id := "crosswalk", min_round := 5, weight := 7 }
  , { id := "shuffle", min_round := 8, weight := 5 } ]

/-- Step 1 of `next_challenge`: the entries passing the round gate,
`round_num >= cls.min_round`. -/
def eligibleOf (registry : List Entry) (round_num : ℕ) : List Entry :=
  registry.filter fun e => decide (e.min_round ≤ round_num)

/-- Steps 2 and 3 of `next_challenge`: drop the entry matching `_last_id`,
falling back to the full eligible pool if that leaves no candidate. -/
def poolOf (last_id : Option String) (registry : List Entry) (round_num : ℕ) : List Entry :=
  let eligible := eligibleOf registry round_num
  let no_repeat := eligible.filter fun e => decide (some e.id ≠ last_id)
  if no_repeat.isEmpty then eligible else no_repeat

/-- Step 4 of `next_challenge`: the entry the (oracle-modelled) weighted
`random.choices` draw selects from the pool. -/
def chosenOf (pick : List Entry → ℕ) (last_id : Option String)
    (registry : List Entry) (round_num : ℕ) : Entry :=
  let pool := poolOf last_id registry round_num
  pool.getD (pick pool % pool.length) { id := "", min_round := 0, weight := 0 }

/-- `ChallengeFactory.next_challenge(round_num)`: round gating, the no-repeat
filter against `_last_id`, fallback to the full eligible pool when the
no-repeat filter empties it, then the (oracle-modelled) weighted random draw.
Returns the chosen entry's id and the updated `_last_id`. -/
def next_challenge (pick : List Entry → ℕ) (last_id : Option String)
    (registry : List Entry) (round_num : ℕ) : Except Unit (String × Option String) :=
  if (eligibleOf registry round_num).isEmpty then
    Except.error ()
  else
    let chosen := chosenOf pick last_id registry round_num
    Except.ok (chosen.id, some chosen.id)

/-- Whether a factory result is a successful return (not a raised RuntimeError). -/
def exceptIsOk : Except Unit (String × Option String) → Bool
  | Except.ok _ => true
  | Except.error _ => false

/-! ## challenges/checkbox.py — class CheckboxChallenge

`random.randint` positions are modelled by an explicit candidate stream feeding
`_try_flee`'s draw-and-retry loop: the method takes the (finite prefix of the)
stream of positions that `_random_position()` would return and keeps drawing
until a candidate passes the distinctness test. `none` models a run whose
modelled stream prefix is exhausted before a candidate is accepted (the Python
loop would simply keep drawing). -/

/-- challenges/checkbox.py: BOX_SIZE = 48 -/
def BOX_SIZE : ℤ := 48

/-- challenges/checkbox.py: FLEE_RADIUS = 90 -/
def FLEE_RADIUS : ℤ := 90

/-- challenges/checkbox.py: MAX_DODGES = 4 -/
def MAX_DODGES : ℕ := 4

/-- `_random_position()` lower y bound: HEADER_H + TIMER_BAR_H + 20. -/
def usable_top : ℤ := HEADER_H + TIMER_BAR_H + 20

/-- `_random_position()` upper y bound: SCREEN_H - BOTTOM_PANEL_H - BOX_SIZE - 20. -/
def usable_bot : ℤ := SCREEN_H - BOTTOM_PANEL_H - BOX_SIZE - 20

/-- `_random_position()` lower x bound. -/
def usable_left : ℤ := 24

/-- `_random_position()` upper x bound: SCREEN_W - BOX_SIZE - 24. -/
def usable_right : ℤ := SCREEN_W - BOX_SIZE - 24

/-- The positions `_random_position()` can return (`random.randint` is inclusive
on both ends). -/
def inRandomBounds (p : ℤ × ℤ) : Prop :=
  usable_left ≤ p.1 ∧ p.1 ≤ usable_right ∧ usable_top ≤ p.2 ∧ p.2 ≤ usable_bot

instance (p : ℤ × ℤ) : Decidable (inRandomBounds p) := by
  unfold inRandomBounds; infer_instance

/-- The exit test of `_try_flee`'s while loop: a candidate is kept unless it is
within `BOX_SIZE * 2` of the old position in the x axis AND in the y axis. -/
def fleeAccept (old cand : ℤ × ℤ) : Bool :=
  !(decide (|cand.1 - old.1| < BOX_SIZE * 2) && decide (|cand.2 - old.2| < BOX_SIZE * 2))

/-- The draw-and-retry loop of `_try_flee`: the first candidate of the stream
that passes `fleeAccept`. -/
def firstAccept (old : ℤ × ℤ) : List (ℤ × ℤ) → Option (ℤ × ℤ)
  | [] => none
  | c :: cs => if fleeAccept old c then some c else firstAccept old cs

/-- The mutable state of `CheckboxChallenge`: checked, dodges, box_x, box_y. -/
structure CheckboxChallenge where
  checked : Bool
  dodges : ℕ
  box_x : ℤ
  box_y : ℤ
deriving DecidableEq, Repr

/-- `CheckboxChallenge._try_flee(cursor_x, cursor_y)`: no-op once checked or
after MAX_DODGES dodges; otherwise, when the cursor is within FLEE_RADIUS of
the box centre, relocate to the first accepted candidate position and count
the dodge. -/
def CheckboxChallenge.try_flee (c : CheckboxChallenge) (cursor_x cursor_y : ℤ)
    (cands : List (ℤ × ℤ)) : Option CheckboxChallenge :=
  if c.checked = true ∨ MAX_DODGES ≤ c.dodges then some c
  else
    let cx := c.box_x + BOX_SIZE / 2
    let cy := c.box_y + BOX_SIZE / 2
    let dist_sq := (cursor_x - cx) ^ 2 + (cursor_y - cy) ^ 2
    if dist_sq < FLEE_RADIUS ^ 2 then
      match firstAccept (c.box_x, c.box_y) cands with
      | some p => some { c with box_x := p.1, box_y := p.2, dodges := c.dodges + 1 }
      | none => none
    else some c

/-! ## challenges/crosswalk.py — _generate_path

The walk's randomness is modelled by the start row and a list of per-iteration
decisions `(move_right, dir)`: `move_right` is `random.random() < 0.7` and
`dir` is the `random.choice([-1, 1])` the iteration would use if it does not
move right (`true` = +1). A run of `_generate_path` that would draw more
decisions than the supplied list is modelled as `none`; every terminating run
of the Python function corresponds to some finite decision list. -/

/-- A grid cell, `(col, row)`. -/
abbrev Cell := ℕ × ℕ

/-- 4-adjacency of grid cells: same column and rows one apart, or same row and
columns one apart. -/
def Adj (a b : Cell) : Prop :=
  (a.1 = b.1 ∧ (a.2 = b.2 + 1 ∨ b.2 = a.2 + 1)) ∨
  (a.2 = b.2 ∧ (a.1 = b.1 + 1 ∨ b.1 = a.1 + 1))

/-- One hop inside the cell collection `S`. -/
def stepRel (S : List Cell) (a b : Cell) : Prop :=
  b ∈ S ∧ Adj a b

/-- Reachability inside the cell collection `S` by 4-adjacent hops. -/
def ReachIn (S : List Cell) : Cell → Cell → Prop :=
  Relation.ReflTransGen (stepRel S)

/-- The cell collection `S` is connected under 4-adjacency. -/
def ConnectedCells (S : List Cell) : Prop :=
  ∀ a ∈ S, ∀ b ∈ S, ReachIn S a b

/-- The body of `_generate_path`'s loop: move right, or step up/down when the
new row stays on the grid, else move right after all. -/
def stepCell (col row : ℕ) (move_right d : Bool) : Cell :=
  if move_right then (col + 1, row)
  else
    let new_row : ℤ := (row : ℤ) + (if d then 1 else -1)
    if 0 ≤ new_row ∧ new_row < (GRID_ROWS : ℤ) then (col, new_row.toNat)
    else (col + 1, row)

/-- The while loop of `_generate_path`: while `col < GRID_COLS - 1`, consume one
decision, take the step, and record the new cell if it is not already on the
path. -/
def walk : ℕ → ℕ → List Cell → List (Bool × Bool) → Option (List Cell)
  | col, _, path, [] => if col < GRID_COLS - 1 then none else some path
  | col, row, path, (move_right, d) :: ds =>
    if col < GRID_COLS - 1 then
      let next := stepCell col row move_right d
      let path2 := if next ∈ path then path else path ++ [next]
      walk next.1 next.2 path2 ds
    else some path

/-- `_generate_path()`: start at `(0, row)` for the drawn start row, then walk
until the far column is reached. The Python function returns `set(path)`; the
embedding returns the duplicate-free list whose membership is that set. -/
def generate_path (start_row : ℕ) (ds : List (Bool × Bool)) : Option (List Cell) :=
  walk 0 start_row [(0, start_row)] ds

/-! ## renderer/grid.py — class TileGrid

The geometry below is the default-constructed grid every challenge uses
(3 × 3 tiles of 96 × 96 with 8px padding, centred as `_compute_origin`
computes). `selected` is the Python set of `(col, row)` tuples; `toggle`
accepts arbitrary ints exactly as the Python method does. -/

namespace TileGrid

/-- `_compute_origin`: top_used = HEADER_H + TIMER_BAR_H. -/
def top_used : ℤ := HEADER_H + TIMER_BAR_H

/-- `_compute_origin`: usable_h = SCREEN_H - top_used - BOTTOM_PANEL_H. -/
def usable_h : ℤ := SCREEN_H - top_used - BOTTOM_PANEL_H

/-- `_compute_origin`: grid_w = cols * tile_w + (cols - 1) * padding. -/
def grid_w : ℤ := (GRID_COLS : ℤ) * GRID_TILE_W + ((GRID_COLS : ℤ) - 1) * GRID_PADDING

/-- `_compute_origin`: grid_h = rows * tile_h + (rows - 1) * padding. -/
def grid_h : ℤ := (GRID_ROWS : ℤ) * GRID_TILE_H + ((GRID_ROWS : ℤ) - 1) * GRID_PADDING

/-- `_compute_origin`: origin_x = (SCREEN_W - grid_w) // 2. -/
def origin_x : ℤ := (SCREEN_W - grid_w) / 2

/-- `_compute_origin`: origin_y = top_used + (usable_h - grid_h) // 2. -/
def origin_y : ℤ := top_used + (usable_h - grid_h) / 2

/-- `tile_rect(col, row)`: the top-left corner of the tile's rect (its size is
always GRID_TILE_W × GRID_TILE_H). -/
def tile_pos (col row : ℕ) : ℤ × ℤ :=
  (origin_x + (col : ℤ) * (GRID_TILE_W + GRID_PADDING),
   origin_y + (row : ℤ) * (GRID_TILE_H + GRID_PADDING))

/-- `pygame.Rect(x, y, w, h).collidepoint(gx, gy)`: inside the rect, right and
bottom edges exclusive. -/
def collidepoint (x y w h gx gy : ℤ) : Bool :=
  decide (x ≤ gx) && decide (gx < x + w) && decide (y ≤ gy) && decide (gy < y + h)

/-- `TileGrid.hit_test(gx, gy)`: scan rows then columns in order, returning the
first tile whose rect contains the point, else `none`. -/
def hit_test (gx gy : ℤ) : Option (ℕ × ℕ) :=
  (List.range GRID_ROWS).findSome? fun row =>
    (List.range GRID_COLS).findSome? fun col =>
      if collidepoint (tile_pos col row).1 (tile_pos col row).2
          GRID_TILE_W GRID_TILE_H gx gy = true
      then some (col, row) else none

/-- `TileGrid.toggle(col, row)`: remove `(col, row)` from the selected set if
present, else insert it. -/
def toggle (selected : Finset (ℤ × ℤ)) (col row : ℤ) : Finset (ℤ × ℤ) :=
  if (col, row) ∈ selected then selected.erase (col, row)
  else insert (col, row) selected

/-- `TileGrid.handle_click(gx, gy)`: hit-test the point and toggle the hit tile;
returns the new selected set and the hit. -/
def handle_click (selected : Finset (ℤ × ℤ)) (gx gy : ℤ) :
    Finset (ℤ × ℤ) × Option (ℕ × ℕ) :=
  match hit_test gx gy with
  | some cr => (toggle selected (cr.1 : ℤ) (cr.2 : ℤ), some cr)
  | none => (selected, none)

end TileGrid

/-! ## Theorems -/

/-! ### Session: score law and strike law -/

/-- After `n` consecutive passes from a fresh session: score, streak and round. -/
theorem passN_fields (n : ℕ) :
    (passN n).score = 50 * (n * (n + 1)) ∧ (passN n).streak = n ∧
    (passN n).round_num = 1 + n := by
  induction n with
  | zero => exact ⟨rfl, rfl, rfl⟩
  | succ n ih =>
    obtain ⟨hs, hk, hr⟩ := ih
    refine ⟨?_, ?_, ?_⟩ <;>
      simp only [passN, Session.register_pass, Session.start_flash, hs, hk, hr, BASE_SCORE]
    · ring
    · omega

/-- C4: starting from a fresh Session (score 0, streak 0), N consecutive
`register_pass()` calls with no intervening fail yield
`score == BASE_SCORE * N * (N + 1) / 2` (with BASE_SCORE = 100), and
`round_num` increases by exactly N (from 1 to 1 + N). -/
theorem score_law (n : ℕ) :
    (passN n).score = BASE_SCORE * n * (n + 1) / 2 ∧
    (passN n).round_num = 1 + n := by
  obtain ⟨hs, -, hr⟩ := passN_fields n
  refine ⟨?_, hr⟩
  have h : BASE_SCORE * n * (n + 1) = 100 * (n * (n + 1)) := by
    simp only [BASE_SCORE]; ring
  rw [hs, h]
  generalize n * (n + 1) = m
  omega

/-- C3 counterexample: an interleaved `register_pass()` does NOT reset `streak`
to 0 — after a fail then a pass on a fresh session the streak is 1, not 0
(while strikes are indeed kept at 1). -/
theorem pass_resets_streak_counterexample :
    (Session.reset.register_fail.register_pass).streak = 1 ∧
    ¬(Session.reset.register_fail.register_pass).streak = 0 ∧
    (Session.reset.register_fail.register_pass).strikes = 1 := by
  refine ⟨rfl, by decide, rfl⟩

/-- C3 (amended): from a fresh Session, `register_fail()` called MAX_STRIKES (3)
times with no passes between makes `is_game_over()` true, while MAX_STRIKES - 1
(2) calls leave it false; and any interleaved `register_pass()` leaves `strikes`
unchanged — it increments `streak` rather than resetting it (it is
`register_fail()` that resets `streak` to 0). -/
theorem strike_law :
    (failN MAX_STRIKES).is_game_over = true ∧
    (failN (MAX_STRIKES - 1)).is_game_over = false ∧
    ∀ s : Session,
      s.register_pass.strikes = s.strikes ∧
      s.register_pass.streak = s.streak + 1 ∧
      s.register_fail.strikes = s.strikes + 1 ∧
      s.register_fail.streak = 0 := by
  exact ⟨rfl, rfl, fun s => ⟨rfl, rfl, rfl, rfl⟩⟩

/-! ### Timer: start contract -/

/-- C7: for every `round_num >= 1`, immediately after `Timer.start(round_num)`
the computed limit equals
`max(TIMER_MIN_S, TIMER_START_S - (round_num - 1) * TIMER_DECAY)`,
`is_expired()` returns false and `fill()` returns exactly 1. -/
theorem timer_start_spec (round_num : ℕ) (_h : 1 ≤ round_num) :
    (Timer.start round_num).limit =
      max TIMER_MIN_S (TIMER_START_S - ((round_num : ℚ) - 1) * TIMER_DECAY) ∧
    (Timer.start round_num).is_expired = false ∧
    (Timer.start round_num).fill = 1 := by
  have hpos : (0 : ℚ) < max TIMER_MIN_S (TIMER_START_S - ((round_num : ℚ) - 1) * TIMER_DECAY) :=
    lt_max_of_lt_left (by norm_num [TIMER_MIN_S])
  refine ⟨rfl, ?_, ?_⟩
  · simp only [Timer.is_expired, Timer.start]
    rw [decide_eq_false_iff_not]
    exact not_le.mpr hpos
  · simp only [Timer.fill, Timer.start]
    rw [if_neg (not_le.mpr hpos), zero_div, sub_zero]
    exact max_eq_right zero_le_one

/-- C7 witness at round 1. -/
theorem timer_start_spec_witness :
    1 ≤ 1 ∧
    ((Timer.start 1).limit =
       max TIMER_MIN_S (TIMER_START_S - ((1 : ℚ) - 1) * TIMER_DECAY) ∧
     (Timer.start 1).is_expired = false ∧
     (Timer.start 1).fill = 1) :=
  ⟨le_refl 1, timer_start_spec 1 (le_refl 1)⟩

/-! ### TileGrid: toggle is an involution -/

/-- Toggling the same tile twice restores the selected set. -/
theorem toggle_toggle (sel : Finset (ℤ × ℤ)) (col row : ℤ) :
    TileGrid.toggle (TileGrid.toggle sel col row) col row = sel := by
  unfold TileGrid.toggle
  by_cases h : (col, row) ∈ sel
  · rw [if_pos h, if_neg (Finset.not_mem_erase _ _), Finset.insert_erase h]
  · rw [if_neg h, if_pos (Finset.mem_insert_self _ _), Finset.erase_insert h]

/-- C10: for every selected set and tile coordinate, `toggle(col, row)` twice in
succession restores the selected set (toggle is an involution); hence a click
handled by `handle_click` is exactly undone by a second click at the same
point. -/
theorem toggle_involution :
    (∀ (sel : Finset (ℤ × ℤ)) (col row : ℤ),
       TileGrid.toggle (TileGrid.toggle sel col row) col row = sel) ∧
    (∀ (sel : Finset (ℤ × ℤ)) (gx gy : ℤ),
       (TileGrid.handle_click (TileGrid.handle_click sel gx gy).1 gx gy).1 = sel) := by
  refine ⟨toggle_toggle, ?_⟩
  intro sel gx gy
  cases h : TileGrid.hit_test gx gy with
  | none => simp [TileGrid.handle_click, h]
  | some cr => simp [TileGrid.handle_click, h, toggle_toggle]

/-! ### Game: a timer expiry always registers a fail -/

/-- On the concrete frame used against C2, the timer tick saturates at the
limit. -/
theorem frame_timer_eq :
    Timer.update { limit := 4, elapsed := 3, running := true } 2 =
      { limit := 4, elapsed := 4, running := true } := by
  rw [Timer.update, if_pos ⟨rfl, by norm_num⟩]
  norm_num

/-- On the concrete frame used against C2, the ticked timer is expired. -/
theorem frame_timer_expired :
    (Timer.update { limit := 4, elapsed := 3, running := true } 2).is_expired = true := by
  rw [frame_timer_eq, Timer.is_expired]
  norm_num

/-- A fresh session has no active flash, so `update_flash` leaves it unchanged. -/
theorem frame_flash_eq : Session.reset.update_flash 2 = Session.reset := by
  rw [Session.update_flash, if_neg]
  norm_num [Session.reset]

/-- The concrete frame used against C2, evaluated: the timer expires, and the
orchestrator registers a fail. -/
theorem frame_update_eq :
    Game.update_playing
        { state := GameState.PLAYING, session := Session.reset
          timer := { limit := 4, elapsed := 3, running := true }
          challenge := some true } 2 =
      { state := GameState.FLASH
        session := Session.reset.register_fail
        timer := { limit := 4, elapsed := 4, running := false }
        challenge := some true } := by
  rw [Game.update_playing]
  simp only [frame_timer_eq, frame_flash_eq]
  rw [if_pos (by rw [Timer.is_expired]; norm_num)]
  rfl

/-- C2 counterexample: in PLAYING with the active challenge already solved
(`is_solved()` true), a frame on which the timer expires registers a FAIL —
strikes go to 1 and the round does not advance — not the pass the claim
asserts; the resulting session differs from what `register_pass()` would have
produced. -/
theorem timeout_ignores_solved_counterexample :
    (Game.update_playing
        { state := GameState.PLAYING, session := Session.reset
          timer := { limit := 4, elapsed := 3, running := true }
          challenge := some true } 2).session.strikes = 1 ∧
    (Game.update_playing
        { state := GameState.PLAYING, session := Session.reset
          timer := { limit := 4, elapsed := 3, running := true }
          challenge := some true } 2).session.round_num = 1 ∧
    (Game.update_playing
        { state := GameState.PLAYING, session := Session.reset
          timer := { limit := 4, elapsed := 3, running := true }
          challenge := some true } 2).state = GameState.FLASH ∧
    (Timer.update { limit := 4, elapsed := 3, running := true } 2).is_expired = true ∧
    ¬(Game.update_playing
        { state := GameState.PLAYING, session := Session.reset
          timer := { limit := 4, elapsed := 3, running := true }
          challenge := some true } 2).session =
      (Session.reset.update_flash 2).register_pass := by
  rw [frame_update_eq, frame_flash_eq]
  refine ⟨rfl, rfl, rfl, frame_timer_expired, fun h => ?_⟩
  have hr := congrArg Session.round_num h
  simp [Session.register_fail, Session.register_pass, Session.start_flash,
    Session.reset] at hr

/-- C2 (amended): in the PLAYING state, when the round timer expires the
orchestrator stops the timer and unconditionally calls
`Session.register_fail()` — `challenge.is_solved()` is not consulted on the
timeout path (only a verify-button submission evaluates it) — then enters
FLASH. -/
theorem timeout_always_fails (g : Game) (dt : ℚ)
    (hexp : (g.timer.update dt).is_expired = true) :
    g.update_playing dt =
      { state := GameState.FLASH
        session := (g.session.update_flash dt).register_fail
        timer := (g.timer.update dt).stop
        challenge := g.challenge } := by
  simp [Game.update_playing, hexp, Game.handle_timeout]

/-- C2 (amended) witness: the concrete timed-out frame of the counterexample. -/
theorem timeout_always_fails_witness :
    (Timer.update { limit := 4, elapsed := 3, running := true } 2).is_expired = true ∧
    Game.update_playing
        { state := GameState.PLAYING, session := Session.reset
          timer := { limit := 4, elapsed := 3, running := true }
          challenge := some true } 2 =
      { state := GameState.FLASH
        session := (Session.reset.update_flash 2).register_fail
        timer := (Timer.update { limit := 4, elapsed := 3, running := true } 2).stop
        challenge := some true } :=
  ⟨frame_timer_expired,
   timeout_always_fails
     { state := GameState.PLAYING, session := Session.reset
       timer := { limit := 4, elapsed := 3, running := true }
       challenge := some true } 2 frame_timer_expired⟩

/-! ### Security level (spec-modelled): level-up law and invariant -/

/-- The level invariant `security_level = floor((round_num - 1) / ROUNDS_PER_LEVEL) + 1`
is preserved by every pass/fail sequence. -/
theorem run_security_invariant (ops : List SOp) :
    ∀ s : SessionL,
      s.security_level = (s.round_num - 1) / ROUNDS_PER_LEVEL + 1 →
      (s.run ops).security_level = ((s.run ops).round_num - 1) / ROUNDS_PER_LEVEL + 1 := by
  induction ops with
  | nil => exact fun s h => h
  | cons op ops ih =>
    intro s h
    cases op with
    | pass =>
      apply ih
      simp only [SessionL.register_pass, ROUNDS_PER_LEVEL] at h ⊢
      split
      · rfl
      · next hc => omega
    | fail =>
      apply ih
      simpa [SessionL.register_fail] using h

/-- C1 (spec-modelled): starting at round 1, after exactly ROUNDS_PER_LEVEL (5)
consecutive passes `security_level` rises from 1 to 2, with `level_up` true on
exactly that pass and false on the four before it; and along every pass/fail
sequence from a fresh session,
`security_level = floor((round_num - 1) / ROUNDS_PER_LEVEL) + 1`. -/
theorem level_up_law :
    SessionL.reset.security_level = 1 ∧
    (∀ k : ℕ, 1 ≤ k → k ≤ ROUNDS_PER_LEVEL →
      (passLN k).security_level = (if k = ROUNDS_PER_LEVEL then 2 else 1) ∧
      (passLN k).level_up = decide (k = ROUNDS_PER_LEVEL)) ∧
    (∀ ops : List SOp,
      (SessionL.reset.run ops).security_level =
        ((SessionL.reset.run ops).round_num - 1) / ROUNDS_PER_LEVEL + 1) := by
  refine ⟨rfl, ?_, fun ops => run_security_invariant ops SessionL.reset rfl⟩
  intro k h1 h2
  simp only [ROUNDS_PER_LEVEL] at h2 ⊢
  interval_cases k <;> exact ⟨by decide, by decide⟩

/-- C1 witness: the fifth pass itself. -/
theorem level_up_law_witness :
    1 ≤ 5 ∧ 5 ≤ ROUNDS_PER_LEVEL ∧
    ((passLN 5).security_level = (if 5 = ROUNDS_PER_LEVEL then 2 else 1) ∧
     (passLN 5).level_up = decide (5 = ROUNDS_PER_LEVEL)) :=
  ⟨by decide, by decide, level_up_law.2.1 5 (by decide) (by decide)⟩

/-! ### Checkbox: the flee displacement guarantee -/

/-- A position returned by `_try_flee`'s draw-and-retry loop passes the loop's
distinctness test. -/
theorem firstAccept_accepts (old : ℤ × ℤ) (cands : List (ℤ × ℤ)) (p : ℤ × ℤ)
    (h : firstAccept old cands = some p) : fleeAccept old p = true := by
  induction cands with
  | nil => simp [firstAccept] at h
  | cons c cs ih =>
    rw [firstAccept] at h
    by_cases hc : fleeAccept old c = true
    · rw [if_pos hc] at h
      cases h
      exact hc
    · rw [if_neg hc] at h
      exact ih h

/-- C6 counterexample: a flee move (cursor inside the flee radius, dodges
0 < MAX_DODGES, box unchecked) from (24, 108) to the feasible random position
(120, 108) is accepted by the relocation loop — `|Δx| = 96 ≥ 2·BOX_SIZE` — yet
its `|Δy| = 0`, so the displacement is NOT at least `2·BOX_SIZE` in both axes
simultaneously. -/
theorem flee_both_axes_counterexample :
    CheckboxChallenge.try_flee { checked := false, dodges := 0, box_x := 24, box_y := 108 }
        48 132 [(120, 108)] =
      some { checked := false, dodges := 1, box_x := 120, box_y := 108 } ∧
    inRandomBounds (24, 108) ∧ inRandomBounds (120, 108) ∧
    ¬(BOX_SIZE * 2 ≤ |(120 : ℤ) - 24| ∧ BOX_SIZE * 2 ≤ |(108 : ℤ) - 108|) := by
  refine ⟨by decide, by decide, by decide, by decide⟩

/-- C6 (amended): whenever the chase-the-cursor checkbox flees (which is
observable as `dodges` incrementing), the new position differs from the old one
by at least `2·BOX_SIZE` in at least one axis — `|Δx| ≥ 2·BOX_SIZE` OR
`|Δy| ≥ 2·BOX_SIZE` (not necessarily both). -/
theorem flee_min_displacement (c c2 : CheckboxChallenge) (cursor_x cursor_y : ℤ)
    (cands : List (ℤ × ℤ))
    (h : c.try_flee cursor_x cursor_y cands = some c2)
    (hfled : c2.dodges = c.dodges + 1) :
    BOX_SIZE * 2 ≤ |c2.box_x - c.box_x| ∨ BOX_SIZE * 2 ≤ |c2.box_y - c.box_y| := by
  rw [CheckboxChallenge.try_flee] at h
  by_cases hskip : c.checked = true ∨ MAX_DODGES ≤ c.dodges
  · rw [if_pos hskip] at h
    cases h
    omega
  · rw [if_neg hskip] at h
    by_cases hnear :
        (cursor_x - (c.box_x + BOX_SIZE / 2)) ^ 2 +
          (cursor_y - (c.box_y + BOX_SIZE / 2)) ^ 2 < FLEE_RADIUS ^ 2
    · rw [if_pos hnear] at h
      cases hfa : firstAccept (c.box_x, c.box_y) cands with
      | none => rw [hfa] at h; cases h
      | some p =>
        rw [hfa] at h
        cases h
        have hacc := firstAccept_accepts _ _ _ hfa
        rw [fleeAccept] at hacc
        simp only [Bool.not_eq_true', Bool.and_eq_false_imp, decide_eq_true_eq,
          decide_eq_false_iff_not, not_lt] at hacc
        by_cases hx : |p.1 - c.box_x| < BOX_SIZE * 2
        · exact Or.inr (hacc hx)
        · exact Or.inl (not_lt.mp hx)
    · rw [if_neg hnear] at h
      cases h
      omega

/-- C6 (amended) witness: the concrete flee of the counterexample. -/
theorem flee_min_displacement_witness :
    BOX_SIZE * 2 ≤ |(120 : ℤ) - 24| ∨ BOX_SIZE * 2 ≤ |(108 : ℤ) - 108| :=
  flee_min_displacement
    { checked := false, dodges := 0, box_x := 24, box_y := 108 }
    { checked := false, dodges := 1, box_x := 120, box_y := 108 }
    48 132 [(120, 108)] (by decide) (by decide)

/-! ### Challenge factory: fatal error, no-repeat, single-type fallback -/

/-- The oracle-modelled `random.choices` draw selects an element of the pool. -/
theorem getD_mod_mem (l : List Entry) (h : l ≠ []) (i : ℕ) (d : Entry) :
    l.getD (i % l.length) d ∈ l := by
  have hlen : 0 < l.length := List.length_pos.mpr h
  have hi : i % l.length < l.length := Nat.mod_lt _ hlen
  rw [List.getD_eq_getElem?_getD, List.getElem?_eq_getElem hi, Option.getD_some]
  exact List.getElem_mem hi

/-- The pool is never empty when the eligible set is not. -/
theorem poolOf_ne_nil (last_id : Option String) (registry : List Entry) (round_num : ℕ)
    (h : eligibleOf registry round_num ≠ []) : poolOf last_id registry round_num ≠ [] := by
  rw [poolOf]
  split
  · exact h
  · next hns => exact fun hnil => hns (by rw [hnil]; rfl)

/-- Every pool member passed the round gate. -/
theorem poolOf_subset (last_id : Option String) (registry : List Entry) (round_num : ℕ) :
    ∀ e ∈ poolOf last_id registry round_num, e ∈ eligibleOf registry round_num := by
  intro e he
  rw [poolOf] at he
  split at he
  · exact he
  · exact (List.mem_filter.mp he).1

/-- When some eligible entry differs from `_last_id`, the fallback does not
trigger: the pool is exactly the no-repeat filter. -/
theorem poolOf_eq_filter (last_id : Option String) (registry : List Entry) (round_num : ℕ)
    (hwit : ∃ w ∈ eligibleOf registry round_num, decide (some w.id ≠ last_id) = true) :
    poolOf last_id registry round_num =
      (eligibleOf registry round_num).filter fun e => decide (some e.id ≠ last_id) := by
  obtain ⟨w, hw, hd⟩ := hwit
  rw [poolOf, if_neg]
  intro hemp
  have hm : w ∈ (eligibleOf registry round_num).filter fun e => decide (some e.id ≠ last_id) :=
    List.mem_filter.mpr ⟨hw, hd⟩
  rw [List.isEmpty_iff.mp hemp] at hm
  exact (List.not_mem_nil w) hm

/-- The chosen entry is a pool member. -/
theorem chosenOf_mem (pick : List Entry → ℕ) (last_id : Option String)
    (registry : List Entry) (round_num : ℕ) (h : eligibleOf registry round_num ≠ []) :
    chosenOf pick last_id registry round_num ∈ poolOf last_id registry round_num := by
  rw [chosenOf]
  exact getD_mod_mem _ (poolOf_ne_nil last_id registry round_num h) _ _

/-- With a single eligible entry the pool is that entry, whatever `_last_id`
holds — the no-repeat filter either keeps it or triggers the fallback. -/
theorem poolOf_single (last_id : Option String) (registry : List Entry) (round_num : ℕ)
    (e : Entry) (helig : eligibleOf registry round_num = [e]) :
    poolOf last_id registry round_num = [e] := by
  rw [poolOf, helig]
  cases hd : decide (some e.id ≠ last_id) <;>
    simp [List.filter_cons, List.filter_nil, hd]

/-- With a single eligible entry the draw returns that entry. -/
theorem chosenOf_single (pick : List Entry → ℕ) (last_id : Option String)
    (registry : List Entry) (round_num : ℕ) (e : Entry)
    (helig : eligibleOf registry round_num = [e]) :
    chosenOf pick last_id registry round_num = e := by
  rw [chosenOf, poolOf_single last_id registry round_num e helig]
  simp [Nat.mod_one]

/-- In a list of ≥ 2 entries with pairwise distinct ids, some entry's id differs
from any given id. -/
theorem exists_ne_id (l : List Entry) (hn : (l.map Entry.id).Nodup) (h2 : 2 ≤ l.length)
    (x : String) : ∃ w ∈ l, w.id ≠ x := by
  match l, h2 with
  | a :: b :: t, _ =>
    have hab : a.id ≠ b.id := by
      rw [List.map_cons, List.map_cons, List.nodup_cons] at hn
      exact fun he => hn.1 (he ▸ List.mem_cons_self _ _)
    by_cases hax : a.id = x
    · exact ⟨b, List.mem_cons_of_mem _ (List.mem_cons_self _ _),
        fun hb => hab (hax.trans hb.symm)⟩
    · exact ⟨a, List.mem_cons_self _ _, hax⟩

/-- `next_challenge` on a nonempty eligible set returns the drawn id and
records it as the new `_last_id`. -/
theorem next_challenge_ok (pick : List Entry → ℕ) (last_id : Option String)
    (registry : List Entry) (round_num : ℕ) (h : eligibleOf registry round_num ≠ []) :
    next_challenge pick last_id registry round_num =
      Except.ok ((chosenOf pick last_id registry round_num).id,
        some (chosenOf pick last_id registry round_num).id) := by
  rw [next_challenge, if_neg fun hemp => h (List.isEmpty_iff.mp hemp)]

/-- C5: for any two consecutive `next_challenge` calls at the same round (the
first from any `_last_id` state, the second from the state the first left
behind): with at least two eligible entries the second returned identifier
never equals the first, and with exactly one eligible entry both calls succeed
and return that one entry's identifier. The ids of the registry are pairwise
distinct (it is a Python dict keyed by id). -/
theorem factory_no_repeat (pick₁ pick₂ : List Entry → ℕ) (registry : List Entry)
    (last₀ : Option String) (round_num : ℕ)
    (hnodup : (registry.map Entry.id).Nodup) :
    (∀ id₁ l₁ id₂ l₂,
      2 ≤ (eligibleOf registry round_num).length →
      next_challenge pick₁ last₀ registry round_num = Except.ok (id₁, l₁) →
      next_challenge pick₂ l₁ registry round_num = Except.ok (id₂, l₂) →
      id₂ ≠ id₁) ∧
    (∀ e : Entry, eligibleOf registry round_num = [e] →
      next_challenge pick₁ last₀ registry round_num = Except.ok (e.id, some e.id) ∧
      next_challenge pick₂ (some e.id) registry round_num = Except.ok (e.id, some e.id)) := by
  have helig_nodup : ((eligibleOf registry round_num).map Entry.id).Nodup :=
    List.Nodup.sublist ((List.filter_sublist registry).map Entry.id) hnodup
  constructor
  · intro id₁ l₁ id₂ l₂ h2 hok₁ hok₂
    have hne : eligibleOf registry round_num ≠ [] := by
      intro hnil; rw [hnil] at h2; simp at h2
    rw [next_challenge_ok pick₁ last₀ registry round_num hne] at hok₁
    rw [Except.ok.injEq, Prod.mk.injEq] at hok₁
    obtain ⟨hid₁, hl₁⟩ := hok₁
    subst hid₁; subst hl₁
    rw [next_challenge_ok pick₂ _ registry round_num hne] at hok₂
    rw [Except.ok.injEq, Prod.mk.injEq] at hok₂
    obtain ⟨hid₂, -⟩ := hok₂
    subst hid₂
    obtain ⟨w, hw, hwne⟩ :=
      exists_ne_id (eligibleOf registry round_num) helig_nodup h2
        (chosenOf pick₁ last₀ registry round_num).id
    have hpool := poolOf_eq_filter (some (chosenOf pick₁ last₀ registry round_num).id)
      registry round_num ⟨w, hw, by simpa using hwne⟩
    have hmem := chosenOf_mem pick₂ (some (chosenOf pick₁ last₀ registry round_num).id)
      registry round_num hne
    rw [hpool] at hmem
    have hd := (List.mem_filter.mp hmem).2
    simpa using hd
  · intro e helig
    have hne : eligibleOf registry round_num ≠ [] := by
      rw [helig]; exact List.cons_ne_nil e []
    constructor
    · rw [next_challenge_ok pick₁ last₀ registry round_num hne,
        chosenOf_single pick₁ last₀ registry round_num e helig]
    · rw [next_challenge_ok pick₂ (some e.id) registry round_num hne,
        chosenOf_single pick₂ (some e.id) registry round_num e helig]

/-- C5 witness: from a fresh factory at round 5 with the real registry (eligible
pool traffic_light/bus/checkbox/crosswalk, all ids distinct), an index-0 oracle
draws traffic_light then bus; and on the one-entry registry holding only
checkbox, both consecutive calls return checkbox. -/
theorem factory_no_repeat_witness :
    ("bus" : String) ≠ "traffic_light" ∧
    (next_challenge (fun _ => 0) none
        [{ id := "checkbox", min_round := 0, weight := 10 }] 1 =
      Except.ok ("checkbox", some "checkbox") ∧
     next_challenge (fun _ => 0) (some "checkbox")
        [{ id := "checkbox", min_round := 0, weight := 10 }] 1 =
      Except.ok ("checkbox", some "checkbox")) :=
  ⟨(factory_no_repeat (fun _ => 0) (fun _ => 0) CHALLENGE_REGISTRY none 5
      (by decide)).1 "traffic_light" (some "traffic_light") "bus" (some "bus")
      (by decide) rfl rfl,
   (factory_no_repeat (fun _ => 0) (fun _ => 0)
      [{ id := "checkbox", min_round := 0, weight := 10 }] none 1
      (by decide)).2 { id := "checkbox", min_round := 0, weight := 10 } (by decide)⟩

/-- C9: `next_challenge(round_num)` raises (returns the fatal error) exactly
when no registry entry passes the round gate `min_round <= round_num`; whenever
at least one entry is eligible it returns normally. -/
theorem factory_error_iff_no_eligible (pick : List Entry → ℕ) (last_id : Option String)
    (registry : List Entry) (round_num : ℕ) :
    (exceptIsOk (next_challenge pick last_id registry round_num) = false ↔
      eligibleOf registry round_num = []) ∧
    (eligibleOf registry round_num = [] ↔ ∀ e ∈ registry, round_num < e.min_round) := by
  constructor
  · by_cases hnil : eligibleOf registry round_num = []
    · rw [next_challenge, if_pos (by rw [hnil]; rfl)]
      simp [exceptIsOk, hnil]
    · rw [next_challenge_ok pick last_id registry round_num hnil]
      simp [exceptIsOk, hnil]
  · rw [eligibleOf, List.filter_eq_nil_iff]
    simp [not_le]

/-! ### Crosswalk: every generated path is connected and spans the grid -/

/-- 4-adjacency is symmetric. -/
theorem adj_symm (a b : Cell) (h : Adj a b) : Adj b a := by
  unfold Adj at h ⊢
  omega

/-- Reachability is monotone in the ambient cell collection. -/
theorem reachIn_mono (S : List Cell) (b : Cell) (x y : Cell) (h : ReachIn S x y) :
    ReachIn (S ++ [b]) x y :=
  Relation.ReflTransGen.mono
    (fun _ _ hpq => ⟨List.mem_append_left _ hpq.1, hpq.2⟩) h

/-- Appending a cell adjacent to a member of a connected collection keeps it
connected. -/
theorem connected_extend (S : List Cell) (a b : Cell) (hS : ConnectedCells S)
    (ha : a ∈ S) (hab : Adj a b) : ConnectedCells (S ++ [b]) := by
  intro x hx y hy
  have hb : b ∈ S ++ [b] := List.mem_append_right _ (List.mem_singleton_self b)
  rcases List.mem_append.mp hx with hxS | hxb
  · rcases List.mem_append.mp hy with hyS | hyb
    · exact reachIn_mono S b x y (hS x hxS y hyS)
    · rw [List.mem_singleton.mp hyb]
      exact Relation.ReflTransGen.tail (reachIn_mono S b x a (hS x hxS a ha)) ⟨hb, hab⟩
  · rw [List.mem_singleton.mp hxb]
    rcases List.mem_append.mp hy with hyS | hyb
    · exact Relation.ReflTransGen.head
        ⟨List.mem_append_left _ ha, adj_symm a b hab⟩
        (reachIn_mono S b a y (hS a ha y hyS))
    · rw [List.mem_singleton.mp hyb]
      exact Relation.ReflTransGen.refl

/-- A singleton cell collection is connected. -/
theorem connected_singleton (c : Cell) : ConnectedCells [c] := by
  intro a ha b hb
  rw [List.mem_singleton.mp ha, List.mem_singleton.mp hb]
  exact Relation.ReflTransGen.refl

/-- The loop body's step moves to a 4-adjacent cell and advances the column by
at most one. -/
theorem stepCell_adj (col row : ℕ) (move_right d : Bool) :
    Adj (col, row) (stepCell col row move_right d) ∧
    (stepCell col row move_right d).1 ≤ col + 1 := by
  rw [stepCell]
  by_cases hmr : move_right = true
  · rw [if_pos hmr]
    exact ⟨Or.inr ⟨rfl, Or.inr rfl⟩, le_refl _⟩
  · rw [if_neg hmr]
    by_cases hd : d = true
    · rw [hd]
      simp only [if_true]
      by_cases hb : 0 ≤ (row : ℤ) + 1 ∧ (row : ℤ) + 1 < (GRID_ROWS : ℤ)
      · rw [if_pos hb]
        refine ⟨Or.inl ⟨rfl, Or.inr ?_⟩, Nat.le_succ col⟩
        show ((row : ℤ) + 1).toNat = row + 1
        omega
      · rw [if_neg hb]
        exact ⟨Or.inr ⟨rfl, Or.inr rfl⟩, le_refl _⟩
    · rw [Bool.not_eq_true] at hd
      rw [hd]
      simp only [Bool.false_eq_true, if_false]
      by_cases hb : 0 ≤ (row : ℤ) + -1 ∧ (row : ℤ) + -1 < (GRID_ROWS : ℤ)
      · rw [if_pos hb]
        refine ⟨Or.inl ⟨rfl, Or.inl ?_⟩, Nat.le_succ col⟩
        show row = ((row : ℤ) + -1).toNat + 1
        omega
      · rw [if_neg hb]
        exact ⟨Or.inr ⟨rfl, Or.inr rfl⟩, le_refl _⟩

/-- Invariant proof for `_generate_path`'s loop: if the current cell is on the
path, the path is connected, contains a column-0 cell, and the column has not
passed the far edge, then any normal termination yields a connected path
touching both the leftmost and the rightmost column. -/
theorem walk_spec (ds : List (Bool × Bool)) :
    ∀ (col row : ℕ) (path S : List Cell),
      (col, row) ∈ path → ConnectedCells path → (∃ c ∈ path, c.1 = 0) →
      col ≤ GRID_COLS - 1 →
      walk col row path ds = some S →
      ConnectedCells S ∧ (∃ c ∈ S, c.1 = 0) ∧ (∃ c ∈ S, c.1 = GRID_COLS - 1) := by
  induction ds with
  | nil =>
    intro col row path S hmem hconn h0 hle hw
    rw [walk] at hw
    by_cases h : col < GRID_COLS - 1
    · rw [if_pos h] at hw
      cases hw
    · rw [if_neg h] at hw
      cases hw
      exact ⟨hconn, h0, ⟨(col, row), hmem, by omega⟩⟩
  | cons hd ds ih =>
    intro col row path S hmem hconn h0 hle hw
    obtain ⟨mr, d⟩ := hd
    rw [walk] at hw
    by_cases h : col < GRID_COLS - 1
    · rw [if_pos h] at hw
      simp only [] at hw
      obtain ⟨hadj, hcol⟩ := stepCell_adj col row mr d
      by_cases hin : stepCell col row mr d ∈ path
      · rw [if_pos hin] at hw
        refine ih (stepCell col row mr d).1 (stepCell col row mr d).2 path S ?_ hconn h0 ?_ ?_
        · exact hin
        · omega
        · exact hw
      · rw [if_neg hin] at hw
        refine ih (stepCell col row mr d).1 (stepCell col row mr d).2
          (path ++ [stepCell col row mr d]) S ?_ ?_ ?_ ?_ ?_
        · exact List.mem_append_right _ (List.mem_singleton_self _)
        · exact connected_extend path (col, row) _ hconn hmem hadj
        · obtain ⟨c, hc, hc0⟩ := h0
          exact ⟨c, List.mem_append_left _ hc, hc0⟩
        · omega
        · exact hw
    · rw [if_neg h] at hw
      cases hw
      exact ⟨hconn, h0, ⟨(col, row), hmem, by omega⟩⟩

/-- C8: every set of cells `_generate_path` returns — for every start row the
uniform draw can produce and every outcome of the per-step random choices — is
connected under 4-adjacency and contains a cell in column 0 and a cell in
column GRID_COLS - 1, so the path spans the grid edge to edge with no gaps. -/
theorem crosswalk_path_spans (start_row : ℕ) (ds : List (Bool × Bool)) (S : List Cell)
    (_hrow : start_row < GRID_ROWS)
    (hgen : generate_path start_row ds = some S) :
    ConnectedCells S ∧ (∃ c ∈ S, c.1 = 0) ∧ (∃ c ∈ S, c.1 = GRID_COLS - 1) := by
  exact walk_spec ds 0 start_row [(0, start_row)] S (List.mem_singleton_self _)
    (connected_singleton _) ⟨(0, start_row), List.mem_singleton_self _, rfl⟩
    (by omega) hgen

/-- C8 witness: the two-decision run that walks straight across row 1. -/
theorem crosswalk_path_spans_witness :
    ConnectedCells [((0 : ℕ), (1 : ℕ)), (1, 1), (2, 1)] ∧
    (∃ c ∈ [((0 : ℕ), (1 : ℕ)), (1, 1), (2, 1)], c.1 = 0) ∧
    (∃ c ∈ [((0 : ℕ), (1 : ℕ)), (1, 1), (2, 1)], c.1 = GRID_COLS - 1) :=
  crosswalk_path_spans 1 [(true, true), (true, true)] _ (by decide) rfl

end CAPTCHArun
